import Mathlib

/-!
Verification of the p21api OData client and report pipeline.

This file gives a shallow embedding of the query/transport layer of the
repository (`p21api/odata_client.py`, `p21_odata_client.py`, `p21api/utils.py`,
`p21api/report_jarp.py`, `main.py`) and proves the specification's testable
properties against it.

Conventions of the embedding:
- Python `datetime` values become the `Datetime` structure (Gregorian fields).
- Python dicts used as JSON records become association lists
  `List (String × String)`.
- Python exceptions become `Except PyExc` results; the distinct exception
  classes of the source are the constructors of `PyExc`.
- Network responses are supplied as explicit arguments (a response value, or a
  function from the request's `$skip` offset to a page response), so every
  definition is executable.
-/

namespace P21Api

/-- Python exception values, tagged by the exception class of the source. -/
inductive PyExc where
  | authenticationError (msg : String)
  | dataFetchError (msg : String)
  | valueError (msg : String)
  | typeError (msg : String)
  | keyError (msg : String)
  | genericError (msg : String)
deriving Repr, DecidableEq

/-- A JSON record (Python dict with string keys and scalar values). -/
abbrev JRec := List (String × String)

/-! ## Datetime model (`datetime` + `calendar` as used by the client) -/

/-- A Python `datetime.datetime` value. -/
structure Datetime where
  year : Nat
  month : Nat
  day : Nat
  hour : Nat
  minute : Nat
  second : Nat
  microsecond : Nat
deriving Repr, DecidableEq

/-- Source `calendar.isleap`: Gregorian leap-year rule. -/
def isLeapYear (y : Nat) : Bool :=
  (y % 4 == 0 && y % 100 != 0) || y % 400 == 0

/-- Second component of `calendar.monthrange(y, m)`: number of days in the month. -/
def monthrangeDays (y m : Nat) : Nat :=
  if m == 2 then (if isLeapYear y then 29 else 28)
  else if m == 4 || m == 6 || m == 9 || m == 11 then 30
  else 31

/-- Zero-pad the decimal representation of `n` to width `w`
(`strftime`'s `%Y`/`%m`/... padding). -/
def padZeros (w : Nat) (n : Nat) : String :=
  let s := toString n
  String.mk (List.replicate (w - s.length) '0') ++ s

/-- Source `ODataClient._datetime_to_str`: `strftime("%Y-%m-%dT%H:%M:%SZ")`.
Microseconds are dropped by the format string. -/
def datetime_to_str (d : Datetime) : String :=
  padZeros 4 d.year ++ "-" ++ padZeros 2 d.month ++ "-" ++ padZeros 2 d.day ++
    "T" ++ padZeros 2 d.hour ++ ":" ++ padZeros 2 d.minute ++ ":" ++
    padZeros 2 d.second ++ "Z"

/-- Source `ODataClient.get_current_month_end_date`: replace the day with the last day
of the month (`calendar.monthrange`) and the time with `datetime.max.time()`,
i.e. `23:59:59.999999`. -/
def get_current_month_end_date (d : Datetime) : Datetime :=
  { year := d.year, month := d.month, day := monthrangeDays d.year d.month,
    hour := 23, minute := 59, second := 59, microsecond := 999999 }

/-! ## URL composition (`ODataClient`) -/

/-- Source `ODataClient._get_endpoint_url`. -/
def get_endpoint_url (base endpoint : String) : String :=
  base ++ "/odataservice/odata/view/" ++ endpoint

/-- Source `ODataClient._get_selects`. -/
def get_selects (selects : List String) : String :=
  "$select=" ++ String.intercalate "," selects

/-- Source `ODataClient._get_filters`. -/
def get_filters (filters : List String) : String :=
  "$filter=" ++ String.intercalate " and " filters

/-- Source `ODataClient._get_order_by`. -/
def get_order_by (order_by : List String) : String :=
  "$orderby=" ++ String.intercalate "," order_by

/-- Source `ODataClient.get_datetime_filter`. -/
def get_datetime_filter (field : String) (start_date end_date : Datetime) :
    List String :=
  [field ++ " ge " ++ datetime_to_str start_date,
   field ++ " le " ++ datetime_to_str end_date]

/-- Source `ODataClient._get_startdate_filter`.  A `datetime` object is always truthy
in Python, so the `None` branch of the source is unreachable when a start date
is passed; when `end_date` is `None` it defaults to
`get_current_month_end_date(start_date)`. -/
def get_startdate_filter (start_date : Datetime) (end_date : Option Datetime) :
    List String :=
  get_datetime_filter "date_created" start_date
    (end_date.getD (get_current_month_end_date start_date))

/-- The `url_params` list built by `ODataClient.compose_url`: one `$select`
segment, then a `$filter` segment when there are any filter parameters, then an
`$orderby` segment when an order-by list is present and non-empty.  Empty lists
are falsy in Python, hence the `isEmpty` guards. -/
def compose_url_params (selects : List String) (start_date : Option Datetime)
    (filters : Option (List String)) (order_by : Option (List String)) :
    List String :=
  let filter_params :=
    (match start_date with
     | some d => get_startdate_filter d none
     | none => []) ++
    (match filters with
     | some fs => fs
     | none => [])
  [get_selects selects] ++
    (if filter_params.isEmpty then [] else [get_filters filter_params]) ++
    (match order_by with
     | some ob => if ob.isEmpty then [] else [get_order_by ob]
     | none => [])

/-- Source `ODataClient.compose_url`: endpoint URL followed by the `&`-joined
parameter segments. -/
def compose_url (base endpoint : String) (selects : List String)
    (start_date : Option Datetime) (filters : Option (List String))
    (order_by : Option (List String)) : String :=
  get_endpoint_url base endpoint ++ "?" ++
    String.intercalate "&" (compose_url_params selects start_date filters order_by)

/-! ## Authentication (`ODataClient._get_headers`, `headers`) -/

/-- The response of the identity endpoint `POST {base}/api/security/token`:
HTTP status, raw body text, and the `AccessToken` field of the JSON body. -/
structure AuthResponse where
  status_code : Nat
  text : String
  accessToken : String
deriving Repr, DecidableEq

/-- Source `ODataClient._get_headers`: on status 200 the base headers plus the bearer
token from the response's `AccessToken` field; on any other status an
`AuthenticationError` whose message embeds the response body. -/
def get_headers (resp : AuthResponse) : Except PyExc (List (String × String)) :=
  if resp.status_code == 200 then
    .ok [("Content-Type", "application/json"),
         ("Accept", "application/json"),
         ("Authorization", "Bearer " ++ resp.accessToken)]
  else
    .error (.authenticationError ("Failed to obtain token: " ++ resp.text))

/-- The mutable part of an `ODataClient` relevant to the `headers`
`cached_property`: the memoized header map (absent until first successful
access) and the number of authentication POSTs issued so far. -/
structure ClientState where
  cached_headers : Option (List (String × String))
  auth_posts : Nat
deriving Repr, DecidableEq

/-- Source `ODataClient.headers` (a `functools.cached_property`): return the cached
map if present; otherwise issue one authentication POST via `_get_headers` and
cache the result.  On an authentication failure nothing is cached (the POST
still happened). -/
def headers_access (resp : AuthResponse) (s : ClientState) :
    Except PyExc (List (String × String)) × ClientState :=
  match s.cached_headers with
  | some h => (.ok h, s)
  | none =>
    match get_headers resp with
    | .ok h => (.ok h, { cached_headers := some h, auth_posts := s.auth_posts + 1 })
    | .error e => (.error e, { cached_headers := none, auth_posts := s.auth_posts + 1 })

/-! ## Retry decorator (`p21api/utils.py`, `retry_on_failure`) -/

/-- One pass of the `for attempt in range(max_retries + 1)` loop of
`retry_on_failure`.  `op i` is the outcome of calling the wrapped function on
attempt `i`; `caught e` models membership of the raised exception in the
decorator's `exceptions` tuple.  Returns the overall outcome together with the
number of times the wrapped operation was invoked; `none` models falling off
the end of the loop, which is unreachable for the actual `range` list. -/
def retry_over (caught : PyExc → Bool) (op : Nat → Except PyExc α)
    (max_retries : Nat) (made : Nat) : List Nat → Option (Except PyExc α × Nat)
  | [] => none
  | attempt :: rest =>
    match op attempt with
    | .ok a => some (.ok a, made + 1)
    | .error e =>
      if caught e then
        if attempt == max_retries then some (.error e, made + 1)
        else retry_over caught op max_retries (made + 1) rest
      else some (.error e, made + 1)

/-- Source `retry_on_failure(max_retries=...)` applied to an operation: run the
attempt loop over `range(max_retries + 1)`. -/
def retry_on_failure (max_retries : Nat) (caught : PyExc → Bool)
    (op : Nat → Except PyExc α) : Option (Except PyExc α × Nat) :=
  retry_over caught op max_retries 0 (List.range (max_retries + 1))

/-- The `status_forcelist` of the urllib3 `Retry` strategy configured by
`ODataClient._create_session`: the HTTP statuses retried by the transport. -/
def status_forcelist : List Nat := [429, 500, 502, 503, 504]

/-! ## Paginated fetch (`ODataClient.fetch_data_paginated`) -/

/-- One page of a data-endpoint response: the `value` array (records modeled by
their indices) and the optional `@odata.count` field. -/
structure PageResponse where
  value : List Nat
  odata_count : Option Nat
deriving Repr, DecidableEq

/-- What `fetch_data_paginated` observes in one loop iteration: the `$skip`
offset requested, the number of records the page returned, and the size of the
accumulated data after extending it with this page. -/
structure IterLog where
  skip : Nat
  pageLen : Nat
  accAfter : Nat
deriving Repr, DecidableEq

/-- The loop of `ODataClient.fetch_data_paginated`.  `server skip` is the
(status-200) response to the request at offset `skip`.  `total?` is the
`total_count` variable (set from the first response's `@odata.count`, with the
page length as default).  Returns the accumulated records together with the log
of iterations from this point on; `none` means the fuel ran out before the loop
broke. -/
def fetch_loop (server : Nat → PageResponse) (page_size : Nat) :
    Nat → Nat → Option Nat → List Nat → Option (List Nat × List IterLog)
  | 0, _, _, _ => none
  | fuel + 1, skip, total?, acc =>
    let resp := server skip
    let value := resp.value
    if value.isEmpty then
      some (acc, [⟨skip, 0, acc.length⟩])
    else
      let acc' := acc ++ value
      let total := total?.getD (resp.odata_count.getD value.length)
      let log : IterLog := ⟨skip, value.length, acc'.length⟩
      if total ≤ acc'.length ∨ value.length < page_size then
        some (acc', [log])
      else
        match fetch_loop server page_size fuel (skip + value.length) (some total) acc' with
        | some (data, logs) => some (data, log :: logs)
        | none => none

/-- Source `ODataClient.fetch_data_paginated`, starting from `skip = 0` with no total
yet and an empty accumulator. -/
def fetch_data_paginated (server : Nat → PageResponse) (page_size : Nat)
    (fuel : Nat) : Option (List Nat × List IterLog) :=
  fetch_loop server page_size fuel 0 none []

/-- A well-behaved OData server holding `total` records (identified `0..total-1`)
that honors `$top=page_size` and `$skip` and always reports `@odata.count`. -/
def canonical_server (total page_size skip : Nat) : PageResponse :=
  { value := ((List.range total).drop skip).take page_size,
    odata_count := some total }

/-- The stop conditions of the pagination loop, for server-reported total `t`
and requested page size `ps`: the page was empty, the accumulated data reached
the total, or the page was short. -/
def stops (t ps : Nat) (l : IterLog) : Prop :=
  l.pageLen = 0 ∨ t ≤ l.accAfter ∨ l.pageLen < ps

/-- The `total_count` a paginated fetch settles on: the first response's
`@odata.count`, defaulting to that page's length. -/
def effective_total (server : Nat → PageResponse) : Nat :=
  (server 0).odata_count.getD (server 0).value.length

instance (t ps : Nat) (l : IterLog) : Decidable (stops t ps l) := by
  unfold stops; infer_instance

/-! ## Legacy single-shot fetch and POST pagination -/

/-- A single data-endpoint response body: the optional `value` array.  A
missing key and an empty array are both falsy in Python, so both are modeled by
`[]`. -/
structure DataResponse where
  value : List JRec
deriving Repr, DecidableEq

/-- Source `ODataClient.fetch_data` (legacy single-shot): `None` when the `value`
array is absent or empty, the records otherwise.  The non-200 branch (which
raises) is not modeled here; the `server` argument stands for a status-200
response. -/
def fetch_data (resp : DataResponse) : Option (List JRec) :=
  if resp.value.isEmpty then none else some resp.value

/-- A page of a `post_odataservice` response: the `value` array and the
`@odata.count` field. -/
structure PostPage where
  value : List Nat
  odata_count : Nat
deriving Repr, DecidableEq

/-- The loop of `ODataClient.post_odataservice`: request at `$skip=count`; if
the page's `value` is missing or empty return `None` (discarding `data`);
otherwise extend `data`, take `max_count` from this response, advance `count`
by `page_size`, and stop once `count > max_count`.  Also returns the list of
requested `$skip` offsets.  Outer `none` means the fuel ran out. -/
def post_loop (server : Nat → PostPage) (page_size : Nat) :
    Nat → Nat → List Nat → Option (Option (List Nat) × List Nat)
  | 0, _, _ => none
  | fuel + 1, count, data =>
    let resp := server count
    if resp.value.isEmpty then
      some (none, [count])
    else
      let data' := data ++ resp.value
      let max_count := resp.odata_count
      let count' := count + page_size
      if max_count < count' then
        some (some data', [count])
      else
        match post_loop server page_size fuel count' data' with
        | some (res, skips) => some (res, count :: skips)
        | none => none

/-- Source `ODataClient.post_odataservice`, starting at `count = 0` with empty data. -/
def post_odataservice (server : Nat → PostPage) (page_size : Nat) (fuel : Nat) :
    Option (Option (List Nat) × List Nat) :=
  post_loop server page_size fuel 0 []

/-- A well-behaved POST server with `total` records that honors `$top=page_size`
and `$skip` and reports `@odata.count = total`. -/
def canonical_post_server (total page_size skip : Nat) : PostPage :=
  { value := ((List.range total).drop skip).take page_size,
    odata_count := total }

/-! ## Character-list string helpers

Kernel-executable replacements for Python's `str.split`/`in`, used by the
chunked-fetch model below.  They are fuel-indexed structural recursions so that
concrete instances evaluate. -/

/-- Split `s` on occurrences of the non-empty separator `sep`, scanning left to
right; `acc` holds the reversed current piece.  The fuel is consumed one
character per step, so `s.length` fuel always suffices. -/
def splitOnCharsAux (sep : List Char) : Nat → List Char → List Char → List (List Char)
  | _, [], acc => [acc.reverse]
  | 0, s, acc => [acc.reverse ++ s]
  | fuel + 1, c :: rest, acc =>
    if sep.isPrefixOf (c :: rest) then
      acc.reverse :: splitOnCharsAux sep fuel (List.drop (sep.length - 1) rest) []
    else
      splitOnCharsAux sep fuel rest (c :: acc)

/-- Split a character list on a separator (Python `str.split(sep)`). -/
def splitOnChars (sep s : List Char) : List (List Char) :=
  splitOnCharsAux sep s.length s []

/-- Does `s` contain `pat` as a contiguous substring?  Fuel-indexed like
`splitOnCharsAux`. -/
def containsSubAux (pat : List Char) : Nat → List Char → Bool
  | _, [] => pat.isEmpty
  | 0, _ => false
  | fuel + 1, c :: rest => pat.isPrefixOf (c :: rest) || containsSubAux pat fuel rest

/-- Python's `pat in s` for strings. -/
def containsSub (pat s : List Char) : Bool :=
  pat.isEmpty || containsSubAux pat s.length s

/-! ## Chunked fetch

The chunking layer (`ODataClient._try_chunked_request` and the chunking branch
of `ODataClient.query_odataservice`) is exercised by the repository's test
suite (`tests/test_odata_client.py`, `tests/test_chunking_integration.py`) but
the method itself is not present in the source tree; the definitions in this
section are therefore modelled from the specification (spec §4.5). -/

/-- Modelled from the spec: the URL length threshold (2048 characters) above
which `_try_chunked_request` considers splitting the query. -/
def URL_LENGTH_THRESHOLD : Nat := 2048

/-- Modelled from the spec: the default chunk size (50 equality conditions per
request). -/
def DEFAULT_CHUNK_SIZE : Nat := 50

/-- Modelled from the spec: the minimum chunkable size — a found disjunction
with at or below this many conditions ("a few") is not chunked.  The test suite
treats a 3-condition disjunction as not chunkable. -/
def MIN_CHUNKABLE_CONDITIONS : Nat := 3

/-- Modelled from the spec: recognize a filter fragment of the shape
`(<field> eq <v1> or <field> eq <v2> or ...)` — a parenthesized disjunction of
simple equality clauses — and return its individual conditions. -/
def parse_or_disjunction (frag : String) : Option (List String) :=
  let cs := frag.data
  if cs.head? == some '(' && cs.getLast? == some ')' && 2 ≤ cs.length then
    let inner := (cs.drop 1).dropLast
    let parts := splitOnChars " or ".data inner
    if 2 ≤ parts.length && parts.all (fun p => containsSub " eq ".data p) then
      some (parts.map String.mk)
    else none
  else none

/-- Modelled from the spec: scan the filter fragments for exactly one fragment
that is a parenthesized disjunction of equality clauses; yield its index and
conditions.  If none or several qualify, no chunking occurs. -/
def find_chunkable (filters : List String) : Option (Nat × List String) :=
  match filters.enum.filterMap
      (fun p => (parse_or_disjunction p.2).map (fun conds => (p.1, conds))) with
  | [x] => some x
  | _ => none

/-- Partition a list into consecutive groups of at most `k` elements
(`k = 0` degenerates to a single group). -/
def toChunks : Nat → List α → List (List α)
  | _, [] => []
  | 0, x :: xs => [x :: xs]
  | k + 1, x :: xs =>
    ((x :: xs).take (k + 1)) :: toChunks (k + 1) ((x :: xs).drop (k + 1))
termination_by _k xs => xs.length
decreasing_by simp [List.length_drop]; omega

/-- Modelled from the spec: rebuild a parenthesized disjunction from a group of
equality conditions. -/
def mk_or_fragment (conds : List String) : String :=
  "(" ++ String.intercalate " or " conds ++ ")"

/-- Modelled from the spec: the filter list sent for one chunk — all other
(non-disjunctive) fragments plus a new parenthesized disjunction containing
only that group's conditions. -/
def chunk_filters (filters : List String) (idx : Nat) (group : List String) :
    List String :=
  filters.eraseIdx idx ++ [mk_or_fragment group]

/-- Modelled from the spec: `ODataClient._try_chunked_request`.  Compose the
full URL; within the length threshold, or without exactly one sufficiently
large chunkable disjunction, return `None` (no chunking).  Otherwise partition
the conditions into groups of `chunk_size`, fetch each rebuilt chunk query via
`fetch` (the single-shot `fetch_data` on the chunk's composed URL), and
concatenate the chunk results in chunk order; if every chunk returns no data
the overall result is `None`. -/
def try_chunked_request (base endpoint : String) (selects : List String)
    (filters : List String) (chunk_size : Nat)
    (fetch : String → Option (List JRec)) : Option (List JRec) :=
  let url := compose_url base endpoint selects none (some filters) none
  if url.length ≤ URL_LENGTH_THRESHOLD then none
  else
    match find_chunkable filters with
    | none => none
    | some (idx, conds) =>
      if conds.length ≤ MIN_CHUNKABLE_CONDITIONS then none
      else
        let groups := toChunks chunk_size conds
        let chunk_data := groups.map (fun g =>
          (fetch (compose_url base endpoint selects none
            (some (chunk_filters filters idx g)) none)).getD [])
        let all := chunk_data.flatten
        if all.isEmpty then none else some all

/-- Modelled from the spec: the chunking-aware `ODataClient.query_odataservice`
for a query given by explicit filters.  When `_try_chunked_request` produced a
chunked result, the diagnostic URL is tagged with the `(chunked)` marker;
otherwise the composed URL is fetched unchunked. -/
def query_odataservice_chunked (base endpoint : String) (selects : List String)
    (filters : List String) (fetch : String → Option (List JRec)) :
    Option (List JRec) × String :=
  let url := compose_url base endpoint selects none (some filters) none
  match try_chunked_request base endpoint selects filters DEFAULT_CHUNK_SIZE fetch with
  | some data => (some data, url ++ " (chunked)")
  | none => (fetch url, url)

/-! ## Legacy client (`p21_odata_client.py`, `P21ODataClient`) -/

/-- A single-quote character, for building OData string literals. -/
def sq : String := String.mk [Char.ofNat 39]

/-- Source `P21ODataClient.get_datetime_filter`: the `"data"` API quotes the bounds as
`datetime'...'`, the `"odataservice"` API leaves them bare, anything else is a
`ValueError`. -/
def p21_get_datetime_filter (field : String) (start_date end_date : Datetime)
    (api : String) : Except PyExc (List String) :=
  let s := datetime_to_str start_date
  let e := datetime_to_str end_date
  if api == "data" then
    .ok [field ++ " ge datetime" ++ sq ++ s ++ sq,
         field ++ " le datetime" ++ sq ++ e ++ sq]
  else if api == "odataservice" then
    .ok [field ++ " ge " ++ s, field ++ " le " ++ e]
  else
    .error (.valueError "Invalid API type")

/-- The message of the `ValueError` raised by `P21ODataClient.compose_url` when
neither a start date nor filters are supplied (the source's line continuation
leaves 29 spaces inside the literal: the one before the backslash plus the 28
leading spaces of the continued line). -/
def p21_neither_msg : String :=
  "Either start_date or filters must be provided. " ++
    String.mk (List.replicate 28 ' ') ++ "Both cannot be None"

/-- Source `P21ODataClient.compose_url`: requires a non-empty select list, and rejects
a query that has neither a start date nor explicit filters with a
`ValueError`. -/
def p21_compose_url (base endpoint api : String) (selects : List String)
    (start_date : Option Datetime) (end_date : Option Datetime)
    (filters : Option (List String)) (order_by : Option (List String)) :
    Except PyExc String := do
  let url := base ++
    (if api == "data" then "/data/erp/views/v1/"
     else if api == "odataservice" then "/odataservice/odata/view/"
     else "") ++ endpoint
  if selects.isEmpty then
    throw (.valueError "selects is required")
  let filter_params ← match start_date with
    | some d =>
      p21_get_datetime_filter "date_created" d
        (end_date.getD (⟨d.year, d.month, monthrangeDays d.year d.month,
          d.hour, d.minute, d.second, d.microsecond⟩ : Datetime)) api
    | none => pure []
  let filters' := match filters with
    | some fs => fs
    | none => []
  if start_date.isNone ∧ filters'.isEmpty then
    throw (.valueError p21_neither_msg)
  let filter_params := filter_params ++ filters'
  let url_params := [get_selects selects] ++
    (if filter_params.isEmpty then [] else [get_filters filter_params]) ++
    (match order_by with
     | some ob => if ob.isEmpty then [] else [get_order_by ob]
     | none => [])
  pure (url ++ "?" ++ String.intercalate "&" url_params)

/-! ## The Jarp report pipeline (`p21api/report_jarp.py`) -/

/-- A JSON scalar is either a string or `null`; `JVRec` records carry them, as
the Jarp report distinguishes `None` field values. -/
abbrev JVRec := List (String × Option String)

/-- Source `ReportBase.file_name`: `<output_folder><prefix><part>_<YYYY-MM-DD>.csv`. -/
def report_file_name (output_folder prefix_ part : String) (start_date : Datetime) :
    String :=
  output_folder ++ prefix_ ++ part ++ "_" ++ padZeros 4 start_date.year ++ "-" ++
    padZeros 2 start_date.month ++ "-" ++ padZeros 2 start_date.day ++ ".csv"

/-- Source `row[key]` on a record: `KeyError` when the key is absent. -/
def dict_item (r : JVRec) (k : String) : Except PyExc (Option String) :=
  match r.lookup k with
  | some v => .ok v
  | none => .error (.keyError k)

/-- Map `row[key]` over a dataset, propagating the first `KeyError`. -/
def column_values (rows : List JVRec) (k : String) :
    Except PyExc (List (Option String)) :=
  rows.mapM (fun r => dict_item r k)

/-- The predicate of the `etl.select` call in `ReportJarp._run`:
`(rec.get("po_no") or "").startswith("P")`. -/
def po_no_starts_with_P (r : JVRec) : Bool :=
  (((r.lookup "po_no").join.getD "").data.head? == some 'P')

/-- The responses the Jarp report's four `query_odataservice` calls receive
(each the `fetch_data` result of a status-200 response), plus the debug flag. -/
structure JarpEnv where
  invoice_hdr : Option (List JVRec)
  invoice_line : Option (List JVRec)
  sales_history : Option (List JVRec)
  supplier : Option (List JVRec)
  debug : Bool

/-- The observable effects of one report `_run`: the endpoints fetched, in
order, and the CSV files written. -/
structure ReportTrace where
  endpoints : List String
  files : List String
deriving Repr, DecidableEq

/-- Source `ReportJarp._run`.  The petl table operations (`select` aside) are external
library calls; the chain join–join–join–cut–sort is abstracted as the
`petl_pipeline` argument.  Python set comprehensions are modeled as
deduplicated value lists.  A `None` fourth-stage result makes
`etl.fromdicts(None)` blow up, modeled as a `TypeError`. -/
def run_jarp (env : JarpEnv) (output_folder : String) (start_date : Datetime)
    (petl_pipeline : List JVRec → List JVRec → List JVRec → List JVRec → List JVRec) :
    Except PyExc ReportTrace := do
  let fname := fun part => report_file_name output_folder "jarp_" part start_date
  let endpoints1 := ["p21_view_invoice_hdr"]
  match env.invoice_hdr with
  | none => return ⟨endpoints1, []⟩
  | some invoice_data =>
  if invoice_data.isEmpty then
    return ⟨endpoints1, []⟩
  let invoice := invoice_data.filter (fun r => !po_no_starts_with_P r)
  let files1 := if env.debug then [fname "invoice"] else []
  let invoice_nos ← column_values invoice_data "invoice_no"
  let invoice_ids_filter := String.intercalate " or "
    ((invoice_nos.dedup).map (fun v =>
      "invoice_no eq " ++ sq ++ v.getD "None" ++ sq))
  let _ := "(" ++ invoice_ids_filter ++ ")"
  let endpoints2 := endpoints1 ++ ["p21_view_invoice_line"]
  match env.invoice_line with
  | none => return ⟨endpoints2, files1⟩
  | some invoice_line_data =>
  if invoice_line_data.isEmpty then
    return ⟨endpoints2, files1⟩
  let files2 := files1 ++ (if env.debug then [fname "invoice_line"] else [])
  let endpoints3 := endpoints2 ++ ["p21_sales_history_view"]
  match env.sales_history with
  | none => return ⟨endpoints3, files2⟩
  | some sales_history_data =>
  if sales_history_data.isEmpty then
    return ⟨endpoints3, files2⟩
  let files3 := files2 ++ (if env.debug then [fname "sales_history"] else [])
  let supplier_ids ← column_values sales_history_data "supplier_id"
  let supplier_id_filter := String.intercalate " or "
    ((supplier_ids.dedup.filterMap id).map (fun v => "supplier_id eq " ++ v))
  let _ := "(" ++ supplier_id_filter ++ ")"
  let endpoints4 := endpoints3 ++ ["p21_view_inventory_supplier"]
  match env.supplier with
  | none => throw (.typeError "etl.fromdicts(None)")
  | some supplier_data =>
  let files4 := files3 ++ (if env.debug then [fname "supplier"] else [])
  let _final := petl_pipeline invoice invoice_line_data sales_history_data supplier_data
  return ⟨endpoints4, files4 ++ [fname "report"]⟩

/-! ## Other report pipelines (`p21api/report_open_po.py`,
`p21api/report_inventory_value.py`)

These two reports do not guard their first-stage result the way `ReportJarp`
does; they are embedded at the same trace level (query filter strings are
abstracted by the environment, petl tables by an opaque function, and a lazy
`etl.fromdicts(None)` blowing up at materialization inside `etl.tocsv` is a
`TypeError` with no completed file write). -/

/-- Python `row[k] in vals` filtering over a dataset (`[row for row in rows if
row[k] in vals]`), raising `KeyError` at the first row lacking the key. -/
def filter_by_key_mem : List JVRec → String → List (Option String) →
    Except PyExc (List JVRec)
  | [], _, _ => .ok []
  | r :: rs, k, vals => do
    let v ← dict_item r k
    let rest ← filter_by_key_mem rs k vals
    if vals.contains v then .ok (r :: rest) else .ok rest

/-- The responses `ReportOpenPO._run`'s three `query_odataservice` calls
receive. -/
structure OpenPOEnv where
  po_hdr : Option (List JVRec)
  po_line : Option (List JVRec)
  supplier : Option (List JVRec)

/-- The `[row[key] for row in data] if data else []` comprehensions of
`ReportOpenPO._run` (Python truthiness: `None` and `[]` both yield `[]`). -/
def open_po_ids (data : Option (List JVRec)) (key : String) :
    Except PyExc (List (Option String)) :=
  match data with
  | some d => if d.isEmpty then Except.ok [] else column_values d key
  | none => Except.ok []

/-- The `[row for row in data if row[key] in vals] if data else []`
comprehensions of `ReportOpenPO._run`. -/
def open_po_filtered (data : Option (List JVRec)) (key : String)
    (vals : List (Option String)) : Except PyExc (List JVRec) :=
  match data with
  | some d => if d.isEmpty then Except.ok [] else filter_by_key_mem d key vals
  | none => Except.ok []

/-- Source `ReportOpenPO._run`: all three fetches are issued unconditionally —
there is no emptiness guard on any stage.  The `po_nos`/`supplier_ids`
comprehensions and the filtered comprehensions run between the fetches;
`po = etl.fromdicts(po_data)` is lazy, so a `None` first-stage result only
raises (`TypeError`) when the final `etl.tocsv` materializes the joins.
Returns the trace plus the raised exception, if any. -/
def run_open_po (env : OpenPOEnv) (output_folder : String) (start_date : Datetime)
    (petl_final : List JVRec → List JVRec → List JVRec → List JVRec) :
    ReportTrace × Option PyExc :=
  let e1 := ["p21_view_po_hdr"]
  match open_po_ids env.po_hdr "po_no" with
  | .error e => (⟨e1, []⟩, some e)
  | .ok po_nos =>
  match open_po_ids env.po_hdr "supplier_id" with
  | .error e => (⟨e1, []⟩, some e)
  | .ok supplier_ids =>
  let e2 := e1 ++ ["p21_view_po_line"]
  match open_po_filtered env.po_line "po_no" po_nos with
  | .error e => (⟨e2, []⟩, some e)
  | .ok po_line_filtered =>
  let e3 := e2 ++ ["p21_view_supplier"]
  match open_po_filtered env.supplier "supplier_id" supplier_ids with
  | .error e => (⟨e3, []⟩, some e)
  | .ok supplier_filtered =>
  match env.po_hdr with
  | none => (⟨e3, []⟩, some (.typeError "etl.fromdicts(None)"))
  | some po_data =>
    let _final := petl_final po_data po_line_filtered supplier_filtered
    (⟨e3, [report_file_name output_folder "open_po_" "report" start_date]⟩, none)

/-- The responses `ReportInventoryValue._run`'s three `query_odataservice`
calls receive. -/
structure InvValueEnv where
  sales : Option (List JVRec)
  po_line : Option (List JVRec)
  inventory_value : Option (List JVRec)

/-- Source `ReportInventoryValue._run`: no stage is guarded; each stage's
result goes straight into `etl.fromdicts` and is materialized by an
`etl.tocsv` before the next fetch, so a stage returning no records (`None`
from `query_odataservice`) raises `TypeError` at that stage's CSV write. -/
def run_inventory_value (env : InvValueEnv) (output_folder : String)
    (start_date : Datetime) : ReportTrace × Option PyExc :=
  let fname := fun part =>
    report_file_name output_folder "inventory_value_" part start_date
  let e1 := ["p21_sales_history_view"]
  match env.sales with
  | none => (⟨e1, []⟩, some (.typeError "etl.fromdicts(None)"))
  | some _sales_data =>
  let f1 := [fname "sales"]
  let e2 := e1 ++ ["p21_view_po_line"]
  match env.po_line with
  | none => (⟨e2, f1⟩, some (.typeError "etl.fromdicts(None)"))
  | some _po_line_data =>
  let f2 := f1 ++ [fname "po_line"]
  let e3 := e2 ++ ["p21_view_inventory_value_report"]
  match env.inventory_value with
  | none => (⟨e3, f2⟩, some (.typeError "etl.fromdicts(None)"))
  | some _inv_data =>
  (⟨e3, f2 ++ [fname "inventory_value", fname "merged_output"]⟩, none)

/-! ## Orchestrator (`main.py`, report loop of `main`) -/

/-- What running one report does: succeed, or raise an exception whose
`str(e)` is `msg`. -/
inductive RunOutcome where
  | ok
  | raises (msg : String)
deriving Repr, DecidableEq

/-- Source `ReportExecutionError(message, exceptions)` of `main.py`. -/
structure ReportExecutionError where
  message : String
  exceptions : List String
deriving Repr, DecidableEq

/-- The per-report error message built in `main`'s loop. -/
def report_error_msg (name msg : String) : String :=
  "Failed to execute " ++ name ++ ": " ++ msg

/-- The report loop of `main` (`main.py`): run each report class; on failure
either raise a `ReportExecutionError` wrapping this first failure immediately
(debug mode) or record the failure and continue; after the loop raise one
aggregated `ReportExecutionError` if anything was recorded.  The recorded
`traceback.format_exc()` strings are modeled by the per-report error messages.
Returns the outcome together with the list of reports that were started. -/
def report_loop (debug : Bool) :
    List (String × RunOutcome) → List String → List String →
    Except ReportExecutionError Unit × List String
  | [], exceptions, ran =>
    (if exceptions.isEmpty then .ok ()
     else .error ⟨"Failed to execute " ++ toString exceptions.length ++ " report(s)",
       exceptions⟩, ran)
  | (name, outcome) :: rest, exceptions, ran =>
    match outcome with
    | .ok => report_loop debug rest exceptions (ran ++ [name])
    | .raises msg =>
      if debug then
        (.error ⟨report_error_msg name msg, []⟩, ran ++ [name])
      else
        report_loop debug rest (exceptions ++ [report_error_msg name msg]) (ran ++ [name])

/-- The batch entry: `main`'s loop starting with no recorded exceptions. -/
def run_report_batch (debug : Bool) (reports : List (String × RunOutcome)) :
    Except ReportExecutionError Unit × List String :=
  report_loop debug reports [] []

/-- The failure messages `main` records for a report list in non-debug mode. -/
def batch_failures (reports : List (String × RunOutcome)) : List String :=
  reports.filterMap (fun p =>
    match p.2 with
    | .ok => none
    | .raises msg => some (report_error_msg p.1 msg))

/-! # Theorems -/

/-! ## General list helpers -/

theorem drop_range' : ∀ (m n s : Nat),
    (List.range' s n).drop m = List.range' (s + m) (n - m) := by
  intro m
  induction m with
  | zero => intro n s; simp
  | succ k ih =>
    intro n s
    cases n with
    | zero => simp
    | succ n' =>
      rw [List.range'_succ, List.drop_succ_cons, ih n' (s + 1)]
      have h1 : s + 1 + k = s + (k + 1) := by omega
      have h2 : n' - k = n' + 1 - (k + 1) := by omega
      rw [h1, h2]

theorem take_range' : ∀ (m n s : Nat),
    (List.range' s n).take m = List.range' s (min m n) := by
  intro m
  induction m with
  | zero => intro n s; simp
  | succ k ih =>
    intro n s
    cases n with
    | zero => simp
    | succ n' =>
      rw [List.range'_succ, List.take_succ_cons, ih n' (s + 1)]
      have h : min (k + 1) (n' + 1) = min k n' + 1 := by omega
      rw [h, List.range'_succ]

/-! ## C3: date-range filter -/

/-- C3: for start date 2024-01-01 and no end date, the composed filter clause
is exactly `date_created ge 2024-01-01T00:00:00Z and date_created le
2024-01-31T23:59:59Z`; in general a missing end date defaults to the last
calendar day of the start month at the latest instant of that day
(23:59:59.999999), and both bounds are rendered at seconds precision with a
trailing `Z`. -/
theorem date_filter_defaults_to_month_end :
    (String.intercalate " and " (get_startdate_filter ⟨2024, 1, 1, 0, 0, 0, 0⟩ none) =
      "date_created ge 2024-01-01T00:00:00Z and date_created le 2024-01-31T23:59:59Z") ∧
    (get_filters (get_startdate_filter ⟨2024, 1, 1, 0, 0, 0, 0⟩ none) =
      "$filter=date_created ge 2024-01-01T00:00:00Z and date_created le 2024-01-31T23:59:59Z") ∧
    (∀ d : Datetime,
      get_current_month_end_date d =
        ⟨d.year, d.month, monthrangeDays d.year d.month, 23, 59, 59, 999999⟩ ∧
      get_startdate_filter d none =
        ["date_created ge " ++ datetime_to_str d,
         "date_created le " ++ datetime_to_str (get_current_month_end_date d)]) := by
  refine ⟨by decide, by decide, fun d => ⟨rfl, rfl⟩⟩

/-! ## C6: authentication outcome -/

/-- C6: `_get_headers` fails with an `AuthenticationError` exactly when the
identity endpoint's status is not 200, and that error's message embeds the
response body; on status 200 it returns the JSON content headers plus
`Authorization: Bearer <AccessToken>`. -/
theorem authentication_error_iff_non_200 :
    (∀ resp : AuthResponse,
      (∃ e, get_headers resp = .error e) ↔ resp.status_code ≠ 200) ∧
    (∀ resp : AuthResponse, resp.status_code ≠ 200 →
      get_headers resp =
        .error (.authenticationError ("Failed to obtain token: " ++ resp.text))) ∧
    (∀ resp : AuthResponse, resp.status_code = 200 →
      get_headers resp = .ok
        [("Content-Type", "application/json"),
         ("Accept", "application/json"),
         ("Authorization", "Bearer " ++ resp.accessToken)]) := by
  refine ⟨fun resp => ?_, fun resp h => ?_, fun resp h => ?_⟩
  · by_cases h : resp.status_code = 200 <;> simp [get_headers, h]
  · simp [get_headers, h]
  · simp [get_headers, h]

/-- Concrete instance of C6: a 401 response yields the `AuthenticationError`
with the body embedded, a 200 response yields the bearer header map. -/
theorem authentication_error_iff_non_200_witness :
    get_headers ⟨401, "denied", ""⟩ =
      .error (.authenticationError ("Failed to obtain token: " ++ "denied")) ∧
    get_headers ⟨200, "", "tok"⟩ = .ok
      [("Content-Type", "application/json"),
       ("Accept", "application/json"),
       ("Authorization", "Bearer " ++ "tok")] :=
  ⟨authentication_error_iff_non_200.2.1 ⟨401, "denied", ""⟩ (by decide),
   authentication_error_iff_non_200.2.2 ⟨200, "", "tok"⟩ rfl⟩

/-! ## C7: token caching -/

/-- C7: starting from a fresh client, two sequential `headers` accesses with no
invalidation issue exactly one authentication POST, and the second access
returns the same cached header map as the first. -/
theorem headers_cached_after_first_access (resp : AuthResponse)
    (h : resp.status_code = 200) :
    (headers_access resp (headers_access resp ⟨none, 0⟩).2).2.auth_posts = 1 ∧
    (headers_access resp (headers_access resp ⟨none, 0⟩).2).1 =
      (headers_access resp ⟨none, 0⟩).1 ∧
    ∃ hdrs, (headers_access resp ⟨none, 0⟩).1 = .ok hdrs := by
  simp [headers_access, get_headers, h]

/-! ## C2: URL segment structure and the neither-date-nor-filter case -/

/-- C2 (counterexample to the claim as stated): `ODataClient.compose_url` with
a non-empty select list but neither a start date nor filters does not fail —
it produces a URL consisting of the endpoint path and the single `$select`
segment. -/
theorem compose_url_neither_counterexample :
    compose_url "http://x" "e" ["id"] none none none =
      "http://x/odataservice/odata/view/e?$select=id" ∧
    compose_url_params ["id"] none none none = ["$select=id"] := by
  constructor <;> decide

/-- C2 (amended): `ODataClient.compose_url` always emits exactly one `$select`
segment first and at most one `$filter` segment (plus at most one `$orderby`);
the validation that rejects a query with neither a date range nor explicit
filters exists only in the legacy `P21ODataClient.compose_url`, which raises a
`ValueError`; the current `ODataClient.compose_url` tolerates that case and
produces a URL holding only the `$select` segment. -/
theorem compose_url_segment_structure :
    (∀ (selects : List String) (start_date : Option Datetime)
      (filters order_by : Option (List String)),
      ∃ fpart opart,
        compose_url_params selects start_date filters order_by =
          [get_selects selects] ++ fpart ++ opart ∧
        fpart.length ≤ 1 ∧
        (∀ seg ∈ fpart, ∃ l, seg = get_filters l) ∧
        (∀ seg ∈ opart, ∃ l, seg = get_order_by l) ∧
        compose_url "" "" selects start_date filters order_by =
          get_endpoint_url "" "" ++ "?" ++ String.intercalate "&"
            ([get_selects selects] ++ fpart ++ opart)) ∧
    (∀ (base endpoint api : String) (selects : List String),
      selects ≠ [] →
      p21_compose_url base endpoint api selects none none none none =
        .error (.valueError p21_neither_msg)) ∧
    (∀ (base endpoint : String) (selects : List String),
      compose_url base endpoint selects none none none =
        get_endpoint_url base endpoint ++ "?" ++ get_selects selects) := by
  refine ⟨fun selects start_date filters order_by => ?_,
    fun base endpoint api selects hne => ?_, fun base endpoint selects => ?_⟩
  · unfold compose_url compose_url_params
    set fp := (match start_date with
      | some d => get_startdate_filter d none
      | none => []) ++ (match filters with
      | some fs => fs
      | none => []) with hfp
    refine ⟨if fp.isEmpty then [] else [get_filters fp],
      (match order_by with
       | some ob => if ob.isEmpty then [] else [get_order_by ob]
       | none => []), rfl, ?_, ?_, ?_, rfl⟩
    · split <;> simp
    · split <;> simp
    · cases order_by with
      | none => simp
      | some ob => split <;> simp
  · cases selects with
    | nil => exact absurd rfl hne
    | cons s ss => rfl
  · rfl

/-- Concrete instance of C2 (amended): a query with a date range yields one
`$select` and one `$filter` segment; the legacy client rejects the
neither-case. -/
theorem compose_url_segment_structure_witness :
    p21_compose_url "http://x" "e" "odataservice" ["id"] none none none none =
      .error (.valueError p21_neither_msg) :=
  compose_url_segment_structure.2.1 "http://x" "e" "odataservice" ["id"]
    (by decide)

/-- Concrete instance of C7. -/
theorem headers_cached_after_first_access_witness :
    (headers_access ⟨200, "", "tok"⟩ (headers_access ⟨200, "", "tok"⟩ ⟨none, 0⟩).2).2.auth_posts = 1 ∧
    (headers_access ⟨200, "", "tok"⟩ (headers_access ⟨200, "", "tok"⟩ ⟨none, 0⟩).2).1 =
      (headers_access ⟨200, "", "tok"⟩ ⟨none, 0⟩).1 ∧
    ∃ hdrs, (headers_access ⟨200, "", "tok"⟩ ⟨none, 0⟩).1 = .ok hdrs :=
  headers_cached_after_first_access ⟨200, "", "tok"⟩ rfl

/-! ## C5: retry semantics -/

theorem retry_over_all_fail {α : Type} (caught : PyExc → Bool)
    (op : Nat → Except PyExc α) (max_retries : Nat) (err : Nat → PyExc)
    (hop : ∀ i, i ≤ max_retries → op i = .error (err i))
    (hc : ∀ i, i ≤ max_retries → caught (err i) = true) :
    ∀ (k j made : Nat), j + k = max_retries →
      retry_over caught op max_retries made (List.range' j (k + 1)) =
        some (.error (err max_retries), made + (k + 1)) := by
  intro k
  induction k with
  | zero =>
    intro j made hj
    rw [List.range'_succ]
    simp only [Nat.add_zero] at hj
    subst hj
    simp [retry_over, hop j le_rfl, hc j le_rfl]
  | succ k ih =>
    intro j made hj
    rw [List.range'_succ]
    have hjle : j ≤ max_retries := by omega
    have hjne : (j == max_retries) = false := by
      simp only [beq_eq_false_iff_ne, ne_eq]
      omega
    have hrec := ih (j + 1) (made + 1) (by omega)
    generalize hL : List.range' (j + 1) (k + 1) = L at hrec ⊢
    simp only [retry_over, hop j hjle, hc j hjle, hjne, Bool.false_eq_true,
      reduceIte, hrec]
    have harith : made + 1 + (k + 1) = made + (k + 1 + 1) := by omega
    rw [harith]

/-- C5: through `retry_on_failure`, an operation that fails with a caught
(retryable) exception on the first two attempts and succeeds on the third
returns the success payload after exactly 3 invocations; an operation that
fails on every attempt with a (caught) `DataFetchError` ends with that
`DataFetchError` after the operation has been invoked exactly
`max_retries + 1` times.  Status 503 is in the transport retry strategy's
`status_forcelist`. -/
theorem retry_on_failure_semantics {α : Type} :
    ((503 : Nat) ∈ status_forcelist) ∧
    (∀ (max_retries : Nat) (caught : PyExc → Bool) (op : Nat → Except PyExc α)
      (e0 e1 : PyExc) (a : α),
      2 ≤ max_retries →
      op 0 = .error e0 → caught e0 = true →
      op 1 = .error e1 → caught e1 = true →
      op 2 = .ok a →
      retry_on_failure max_retries caught op = some (.ok a, 3)) ∧
    (∀ (max_retries : Nat) (caught : PyExc → Bool) (op : Nat → Except PyExc α)
      (msg : Nat → String),
      (∀ i, i ≤ max_retries → op i = .error (.dataFetchError (msg i))) →
      (∀ i, i ≤ max_retries → caught (.dataFetchError (msg i)) = true) →
      retry_on_failure max_retries caught op =
        some (.error (.dataFetchError (msg max_retries)), max_retries + 1)) := by
  refine ⟨by decide,
    fun max_retries caught op e0 e1 a hmr h0 hc0 h1 hc1 h2 => ?_,
    fun max_retries caught op msg hop hc => ?_⟩
  · obtain ⟨k, rfl⟩ : ∃ k, max_retries = k + 2 := ⟨max_retries - 2, by omega⟩
    rw [retry_on_failure, List.range_eq_range']
    rw [show k + 2 + 1 = (k + 2) + 1 from rfl, List.range'_succ,
      show k + 2 = (k + 1) + 1 from rfl, List.range'_succ,
      show k + 1 = k + 1 from rfl, List.range'_succ]
    have hne0 : (0 == k + 2) = false := rfl
    have hne1 : (1 == k + 2) = false := by
      simp only [beq_eq_false_iff_ne, ne_eq]; omega
    simp [retry_over, h0, hc0, h1, hc1, h2, hne0, hne1]
  · rw [retry_on_failure, List.range_eq_range']
    have h := retry_over_all_fail caught op max_retries
      (fun i => .dataFetchError (msg i)) hop hc max_retries 0 0 (by omega)
    simpa using h

/-- Concrete instance of C5: with the decorator's default `max_retries = 3`,
failing on attempts 0 and 1 with a caught exception and succeeding on attempt
2 yields the payload in 3 invocations; failing on every attempt with a
`DataFetchError` yields that error after 4 invocations. -/
theorem retry_on_failure_semantics_witness :
    retry_on_failure 3 (fun _ => true)
      (fun i => if i < 2 then .error (.dataFetchError "HTTP 503") else .ok "payload") =
      some (.ok "payload", 3) ∧
    retry_on_failure 3 (fun _ => true)
      (fun _ => (.error (.dataFetchError "HTTP 503") : Except PyExc String)) =
      some (.error (.dataFetchError "HTTP 503"), 4) :=
  ⟨retry_on_failure_semantics.2.1 3 (fun _ => true) _
      (.dataFetchError "HTTP 503") (.dataFetchError "HTTP 503") "payload"
      (by decide) rfl rfl rfl rfl rfl,
   retry_on_failure_semantics.2.2 3 (fun _ => true) _ (fun _ => "HTTP 503")
      (fun i _ => rfl) (fun i _ => rfl)⟩

/-! ## C9: orchestrator failure policy -/

theorem batch_failures_cons_ok (name : String)
    (rest : List (String × RunOutcome)) :
    batch_failures ((name, .ok) :: rest) = batch_failures rest := rfl

theorem batch_failures_cons_raises (name msg : String)
    (rest : List (String × RunOutcome)) :
    batch_failures ((name, .raises msg) :: rest) =
      report_error_msg name msg :: batch_failures rest := rfl

theorem report_loop_no_debug (reports : List (String × RunOutcome)) :
    ∀ (exceptions ran : List String),
      report_loop false reports exceptions ran =
        (if (exceptions ++ batch_failures reports).isEmpty then .ok ()
         else .error ⟨"Failed to execute " ++
             toString (exceptions ++ batch_failures reports).length ++ " report(s)",
           exceptions ++ batch_failures reports⟩,
         ran ++ reports.map Prod.fst) := by
  induction reports with
  | nil => intro exceptions ran; simp [report_loop, batch_failures]
  | cons r rest ih =>
    intro exceptions ran
    obtain ⟨name, outcome⟩ := r
    cases outcome with
    | ok =>
      rw [show report_loop false ((name, .ok) :: rest) exceptions ran =
        report_loop false rest exceptions (ran ++ [name]) from rfl, ih,
        batch_failures_cons_ok]
      simp
    | raises msg =>
      rw [show report_loop false ((name, .raises msg) :: rest) exceptions ran =
        report_loop false rest (exceptions ++ [report_error_msg name msg])
          (ran ++ [name]) from rfl, ih, batch_failures_cons_raises]
      simp

theorem report_loop_debug_halts (name msg : String)
    (post : List (String × RunOutcome)) :
    ∀ (pre : List (String × RunOutcome)) (exceptions ran : List String),
      (∀ p ∈ pre, p.2 = .ok) →
      report_loop true (pre ++ (name, .raises msg) :: post) exceptions ran =
        (.error ⟨report_error_msg name msg, []⟩, ran ++ pre.map Prod.fst ++ [name]) := by
  intro pre
  induction pre with
  | nil => intro exceptions ran _; simp [report_loop]
  | cons p rest ih =>
    intro exceptions ran hok
    obtain ⟨pname, poutcome⟩ := p
    have hp : poutcome = .ok := hok (pname, poutcome) (List.mem_cons_self _ _)
    subst hp
    rw [List.cons_append,
      show report_loop true ((pname, .ok) :: (rest ++ (name, .raises msg) :: post))
        exceptions ran =
        report_loop true (rest ++ (name, .raises msg) :: post) exceptions
          (ran ++ [pname]) from rfl,
      ih exceptions (ran ++ [pname]) (fun q hq => hok q (List.mem_cons_of_mem _ hq))]
    simp

/-- C9: in debug (immediate-raise) mode the orchestrator raises a
`ReportExecutionError` wrapping the first report failure and does not start the
remaining queue; with debug off every report runs, each failure is recorded,
and the batch ends with no error when all succeed and otherwise with a single
aggregated `ReportExecutionError` collecting all per-report failure messages. -/
theorem orchestrator_failure_policy :
    (∀ (pre post : List (String × RunOutcome)) (name msg : String),
      (∀ p ∈ pre, p.2 = .ok) →
      run_report_batch true (pre ++ (name, .raises msg) :: post) =
        (.error ⟨report_error_msg name msg, []⟩, pre.map Prod.fst ++ [name])) ∧
    (∀ reports : List (String × RunOutcome),
      run_report_batch false reports =
        (if (batch_failures reports).isEmpty then .ok ()
         else .error ⟨"Failed to execute " ++
             toString (batch_failures reports).length ++ " report(s)",
           batch_failures reports⟩,
         reports.map Prod.fst)) := by
  constructor
  · intro pre post name msg hok
    rw [run_report_batch, report_loop_debug_halts name msg post pre [] [] hok]
    simp
  · intro reports
    rw [run_report_batch, report_loop_no_debug reports [] []]
    simp

/-- Concrete instance of C9: with debug on, report `B`'s failure halts the
queue before `C`; with debug off, all three reports run and both failures are
aggregated. -/
theorem orchestrator_failure_policy_witness :
    run_report_batch true [("A", .ok), ("B", .raises "boom"), ("C", .ok)] =
      (.error ⟨report_error_msg "B" "boom", []⟩, ["A", "B"]) ∧
    run_report_batch false
      [("A", .ok), ("B", .raises "boom"), ("C", .raises "bust")] =
      (.error ⟨"Failed to execute " ++ toString (2 : Nat) ++ " report(s)",
        [report_error_msg "B" "boom", report_error_msg "C" "bust"]⟩,
       ["A", "B", "C"]) := by
  constructor
  · exact orchestrator_failure_policy.1 [("A", .ok)] [("C", .ok)] "B" "boom"
      (by decide)
  · have h := orchestrator_failure_policy.2
      [("A", .ok), ("B", .raises "boom"), ("C", .raises "bust")]
    simpa [batch_failures, report_error_msg] using h

/-! ## C8: empty first stage — guarded reports only -/

/-- C8 (counterexample to the claim as stated): the first-stage fetch of
`ReportOpenPO._run` coming back with zero records (`query_odataservice`
returns `None`) does not stop the run — the second-stage `p21_view_po_line`
fetch (and the third) is still issued, and the run ends with a `TypeError`
when the final `etl.tocsv` materializes `etl.fromdicts(None)`; likewise
`ReportInventoryValue._run` raises a `TypeError` at its first CSV write. -/
theorem empty_first_stage_counterexample :
    run_open_po ⟨none, none, none⟩ "out/" ⟨2024, 1, 1, 0, 0, 0, 0⟩
        (fun _ _ _ => []) =
      (⟨["p21_view_po_hdr", "p21_view_po_line", "p21_view_supplier"], []⟩,
       some (.typeError "etl.fromdicts(None)")) ∧
    run_inventory_value ⟨none, none, none⟩ "out/" ⟨2024, 1, 1, 0, 0, 0, 0⟩ =
      (⟨["p21_sales_history_view"], []⟩,
       some (.typeError "etl.fromdicts(None)")) := by
  constructor <;> rfl

/-- C8 (amended): a report pipeline that guards its first-stage result —
`ReportJarp` among them — terminates on a zero-record first stage without
issuing the second-stage fetch, without writing a file and without raising;
but this does not hold of every pipeline: `ReportOpenPO` issues its second-
and third-stage fetches unconditionally and its run ends with a raised
exception when the first stage returned `None`, and `ReportInventoryValue`
raises a `TypeError` at its first CSV write in that case. -/
theorem empty_first_stage_guarded_reports_only :
    (∀ (env : JarpEnv) (output_folder : String) (start_date : Datetime)
      (petl_pipeline : List JVRec → List JVRec → List JVRec → List JVRec →
        List JVRec),
      (env.invoice_hdr = none ∨ env.invoice_hdr = some []) →
      run_jarp env output_folder start_date petl_pipeline =
        .ok ⟨["p21_view_invoice_hdr"], []⟩) ∧
    (∀ (po_line supplier : Option (List JVRec)) (output_folder : String)
      (start_date : Datetime)
      (petl_final : List JVRec → List JVRec → List JVRec → List JVRec),
      "p21_view_po_line" ∈
        (run_open_po ⟨none, po_line, supplier⟩ output_folder start_date
          petl_final).1.endpoints ∧
      ((run_open_po ⟨none, po_line, supplier⟩ output_folder start_date
          petl_final).2).isSome = true) ∧
    (∀ (po_line inv : Option (List JVRec)) (output_folder : String)
      (start_date : Datetime),
      run_inventory_value ⟨none, po_line, inv⟩ output_folder start_date =
        (⟨["p21_sales_history_view"], []⟩,
         some (.typeError "etl.fromdicts(None)"))) := by
  refine ⟨fun env output_folder start_date petl_pipeline h => ?_,
    fun po_line supplier output_folder start_date petl_final => ?_,
    fun po_line inv output_folder start_date => ?_⟩
  · rcases h with h | h <;> simp [run_jarp, h] <;> rfl
  · rw [run_open_po]
    have hids : open_po_ids (none : Option (List JVRec)) "po_no" = .ok [] := rfl
    have hids2 : open_po_ids (none : Option (List JVRec)) "supplier_id" =
      .ok [] := rfl
    simp only [hids, hids2]
    rcases hpl : open_po_filtered po_line "po_no" [] with e | v
    · simp only [hpl]
      exact ⟨by simp, rfl⟩
    · simp only [hpl]
      rcases hsu : open_po_filtered supplier "supplier_id" [] with e | w
      · simp only [hsu]
        exact ⟨by simp, rfl⟩
      · simp only [hsu]
        exact ⟨by simp, rfl⟩
  · rfl

/-- Concrete instance of C8 (amended): `ReportJarp` with an empty first stage
stops silently; `ReportOpenPO` with a `None` first stage still fetches
`p21_view_po_line`. -/
theorem empty_first_stage_guarded_reports_only_witness :
    run_jarp ⟨some [], some [[("invoice_no", some "1")]], some [], some [], true⟩
      "out/" ⟨2024, 1, 1, 0, 0, 0, 0⟩ (fun _ _ _ _ => []) =
      .ok ⟨["p21_view_invoice_hdr"], []⟩ ∧
    "p21_view_po_line" ∈
      (run_open_po ⟨none, none, none⟩ "out/" ⟨2024, 1, 1, 0, 0, 0, 0⟩
        (fun _ _ _ => [])).1.endpoints :=
  ⟨empty_first_stage_guarded_reports_only.1 _ "out/" ⟨2024, 1, 1, 0, 0, 0, 0⟩
      (fun _ _ _ _ => []) (Or.inr rfl),
   (empty_first_stage_guarded_reports_only.2.1 none none "out/"
      ⟨2024, 1, 1, 0, 0, 0, 0⟩ (fun _ _ _ => [])).1⟩

/-! ## C10: `post_odataservice` loses data past an exact page boundary -/

theorem canonical_post_page (N ps skip : Nat) :
    (canonical_post_server N ps skip).value = List.range' skip (min ps (N - skip)) := by
  simp [canonical_post_server, List.range_eq_range', drop_range', take_range']

theorem post_loop_canonical (N ps m : Nat) (hps : 0 < ps) (hm : N = m * ps) :
    ∀ (d j fuel : Nat), j + d = m → d + 1 ≤ fuel →
      post_loop (canonical_post_server N ps) ps fuel (j * ps) (List.range (j * ps)) =
        some (none, List.range' (j * ps) (d + 1) ps) := by
  intro d
  induction d with
  | zero =>
    intro j fuel hj hfuel
    obtain ⟨fuel', rfl⟩ : ∃ f, fuel = f + 1 := ⟨fuel - 1, by omega⟩
    have hjm : j * ps = m * ps := by rw [show j = m by omega]
    have hpage : (canonical_post_server N ps (j * ps)).value = [] := by
      rw [canonical_post_page, show min ps (N - j * ps) = 0 by omega]
      rfl
    rw [post_loop]
    simp [hpage, List.range'_succ]
  | succ d ih =>
    intro j fuel hj hfuel
    obtain ⟨fuel', rfl⟩ : ∃ f, fuel = f + 1 := ⟨fuel - 1, by omega⟩
    have hstep : (j + 1) * ps = j * ps + ps := by ring
    have hlt : (j + 1) * ps ≤ N := by
      rw [hm]; exact Nat.mul_le_mul_right ps (by omega)
    have hmin : min ps (N - j * ps) = ps := by omega
    have hpage : (canonical_post_server N ps (j * ps)).value =
        List.range' (j * ps) ps := by
      rw [canonical_post_page, hmin]
    have hne : ((canonical_post_server N ps (j * ps)).value).isEmpty = false := by
      rw [hpage]
      obtain ⟨p, rfl⟩ : ∃ p, ps = p + 1 := ⟨ps - 1, by omega⟩
      rw [List.range'_succ]
      rfl
    have hdata : List.range (j * ps) ++ (canonical_post_server N ps (j * ps)).value =
        List.range (j * ps + ps) := by
      rw [hpage, List.range_eq_range', List.range_eq_range']
      have h := List.range'_append 0 (j * ps) ps 1
      simp only [Nat.one_mul, Nat.zero_add] at h
      rw [h, Nat.add_comm ps (j * ps)]
    have hnostop : ¬ ((canonical_post_server N ps (j * ps)).odata_count <
        j * ps + ps) := by
      show ¬ (N < j * ps + ps)
      omega
    rw [post_loop]
    simp only [hne, Bool.false_eq_true, reduceIte, if_neg hnostop, hdata]
    rw [show j * ps + ps = (j + 1) * ps from hstep.symm,
      ih (j + 1) fuel' (by omega) (by omega)]
    show some (none, j * ps :: (j + 1) * ps :: List.range' ((j + 1) * ps + ps) d ps) =
      some (none, List.range' (j * ps) (d + 1 + 1) ps)
    rw [List.range'_succ, List.range'_succ, hstep]

/-- C10 (implicit behavior of `post_odataservice`): the loop returns `None`
whenever a requested page's `value` array is missing or empty — even when
records from earlier pages have already been accumulated, which are then
discarded; consequently, for any server whose total record count is a positive
exact multiple of the page size, the loop requests one page past the end
(`N / ps + 1` requests, the last at `$skip = N`) and the call returns `None`
instead of the accumulated records. -/
theorem post_odataservice_empty_page_returns_none :
    (∀ (server : Nat → PostPage) (ps fuel count : Nat) (data : List Nat),
      (server count).value = [] →
      post_loop server ps (fuel + 1) count data = some (none, [count])) ∧
    (∀ (N ps m fuel : Nat), 0 < ps → 0 < m → N = m * ps → m + 1 ≤ fuel →
      post_odataservice (canonical_post_server N ps) ps fuel =
        some (none, List.range' 0 (m + 1) ps) ∧
      (List.range' 0 (m + 1) ps).length = m + 1 ∧
      (List.range' 0 (m + 1) ps).getLast? = some (m * ps)) := by
  constructor
  · intro server ps fuel count data h
    rw [post_loop]
    simp [h]
  · intro N ps m fuel hps hm hNm hfuel
    refine ⟨?_, List.length_range' _ _ _, ?_⟩
    · have h := post_loop_canonical N ps m hps hNm m 0 fuel (by omega) (by omega)
      simpa [post_odataservice] using h
    · have hlast : ∀ (k s step : Nat), (List.range' s (k + 1) step).getLast? =
          some (s + step * k) := by
        intro k
        induction k with
        | zero => intro s step; simp [List.range'_succ]
        | succ k ih =>
          intro s step
          rw [List.range'_succ, List.range'_succ, List.getLast?_cons_cons,
            ← List.range'_succ, ih (s + step)]
          congr 1
          ring
      simpa [Nat.mul_comm] using hlast m 0 ps

/-- Concrete instance of C10: a server with 2 records and page size 1 — an
exact multiple — makes `post_odataservice` issue 3 requests
(`$skip = 0, 1, 2`) and return `None`, discarding both records; and an empty
page returned mid-loop yields `None` even with data already accumulated. -/
theorem post_odataservice_empty_page_returns_none_witness :
    post_odataservice (canonical_post_server 2 1) 1 5 =
      some (none, List.range' 0 3 1) ∧
    List.range' 0 3 1 = [0, 1, 2] ∧
    post_loop (fun _ => (⟨[], 7⟩ : PostPage)) 1 (4 + 1) 9 [5, 6] =
      some (none, [9]) :=
  ⟨(post_odataservice_empty_page_returns_none.2 2 1 2 5 (by decide) (by decide)
      (by decide) (by decide)).1,
   by decide,
   post_odataservice_empty_page_returns_none.1 (fun _ => ⟨[], 7⟩) 1 4 9 [5, 6] rfl⟩

/-! ## C4: paginated fetch -/

theorem canonical_page (N ps skip : Nat) :
    (canonical_server N ps skip).value = List.range' skip (min ps (N - skip)) := by
  simp [canonical_server, List.range_eq_range', drop_range', take_range']

theorem fetch_loop_canonical (N ps m : Nat) (hps : 0 < ps)
    (hm1 : (m - 1) * ps < N) (hm2 : N ≤ m * ps) :
    ∀ (d j fuel : Nat) (t? : Option Nat), j + (d + 1) = m → d + 1 ≤ fuel →
      (t? = none ∨ t? = some N) →
      ∃ logs,
        fetch_loop (canonical_server N ps) ps fuel (j * ps) t? (List.range (j * ps)) =
          some (List.range N, logs) ∧
        logs.map IterLog.skip = List.range' (j * ps) (d + 1) ps := by
  intro d
  induction d with
  | zero =>
    intro j fuel t? hj hfuel ht
    obtain ⟨fuel', rfl⟩ : ∃ f, fuel = f + 1 := ⟨fuel - 1, by omega⟩
    have hstep : (j + 1) * ps = j * ps + ps := by ring
    have hlow : j * ps < N := by
      have : j = m - 1 := by omega
      rw [this]; exact hm1
    have hhigh : N ≤ j * ps + ps := by
      have hm' : m = j + 1 := by omega
      rw [hm', hstep] at hm2
      exact hm2
    have hmin : min ps (N - j * ps) = N - j * ps := by omega
    have hpage : (canonical_server N ps (j * ps)).value =
        List.range' (j * ps) (N - j * ps) := by
      rw [canonical_page, hmin]
    have hne' : (List.range' (j * ps) (N - j * ps)).isEmpty = false := by
      obtain ⟨q, hq⟩ : ∃ q, N - j * ps = q + 1 := ⟨N - j * ps - 1, by omega⟩
      rw [hq, List.range'_succ]
      rfl
    have hacc' : List.range (j * ps) ++ List.range' (j * ps) (N - j * ps) =
        List.range N := by
      rw [List.range_eq_range', List.range_eq_range']
      have h := List.range'_append 0 (j * ps) (N - j * ps) 1
      simp only [Nat.one_mul, Nat.zero_add] at h
      rw [h]
      congr 1
      omega
    have htot : ∀ x, t?.getD ((canonical_server N ps (j * ps)).odata_count.getD x) = N := by
      rcases ht with rfl | rfl <;> intro x <;> rfl
    have hstopc : N ≤ (List.range N).length ∨
        (List.range' (j * ps) (N - j * ps)).length < ps := by
      left
      rw [List.length_range]
    refine ⟨[⟨j * ps, N - j * ps, N⟩], ?_, ?_⟩
    · rw [fetch_loop]
      simp only [hpage, hne', htot, hacc', Bool.false_eq_true, reduceIte,
        List.length_range, List.length_range']
      rw [if_pos (Or.inl (le_refl N))]
    · rw [List.range'_succ]
      rfl
  | succ d ih =>
    intro j fuel t? hj hfuel ht
    obtain ⟨fuel', rfl⟩ : ∃ f, fuel = f + 1 := ⟨fuel - 1, by omega⟩
    have hstep : (j + 1) * ps = j * ps + ps := by ring
    have hlt : (j + 1) * ps ≤ (m - 1) * ps := Nat.mul_le_mul_right ps (by omega)
    have hlow : (j + 1) * ps < N := lt_of_le_of_lt hlt hm1
    have hmin : min ps (N - j * ps) = ps := by omega
    have hpage : (canonical_server N ps (j * ps)).value =
        List.range' (j * ps) ps := by
      rw [canonical_page, hmin]
    have hne' : (List.range' (j * ps) ps).isEmpty = false := by
      obtain ⟨p, hp⟩ : ∃ p, ps = p + 1 := ⟨ps - 1, by omega⟩
      rw [hp, List.range'_succ]
      rfl
    have hacc' : List.range (j * ps) ++ List.range' (j * ps) ps =
        List.range (j * ps + ps) := by
      rw [List.range_eq_range', List.range_eq_range']
      have h := List.range'_append 0 (j * ps) ps 1
      simp only [Nat.one_mul, Nat.zero_add] at h
      rw [h, Nat.add_comm ps (j * ps)]
    have htot : ∀ x, t?.getD ((canonical_server N ps (j * ps)).odata_count.getD x) = N := by
      rcases ht with rfl | rfl <;> intro x <;> rfl
    have hnostop : ¬ (N ≤ (List.range (j * ps + ps)).length ∨
        (List.range' (j * ps) ps).length < ps) := by
      rw [List.length_range, List.length_range']
      omega
    obtain ⟨logs', hrec, hmap⟩ := ih (j + 1) fuel' (some N) (by omega) (by omega)
      (Or.inr rfl)
    rw [hstep] at hrec hmap
    refine ⟨⟨j * ps, ps, j * ps + ps⟩ :: logs', ?_, ?_⟩
    · rw [fetch_loop]
      simp only [hpage, hne', htot, hacc', Bool.false_eq_true, reduceIte,
        List.length_range, List.length_range', hrec]
      have hnostop' : ¬ (N ≤ j * ps + ps ∨ ps < ps) := by omega
      rw [if_neg hnostop']
    · simp only [List.map_cons, hmap]
      rw [List.range'_succ (j * ps) (d + 1) ps]

theorem fetch_loop_stop_char (server : Nat → PageResponse) (ps : Nat) :
    ∀ (fuel skip : Nat) (t? : Option Nat) (acc : List Nat) (t : Nat)
      (data : List Nat) (logs : List IterLog),
      t?.getD ((server skip).odata_count.getD (server skip).value.length) = t →
      fetch_loop server ps fuel skip t? acc = some (data, logs) →
      ∃ init last, logs = init ++ [last] ∧ stops t ps last ∧
        ∀ l ∈ init, ¬ stops t ps l := by
  intro fuel
  induction fuel with
  | zero =>
    intro skip t? acc t data logs ht h
    rw [fetch_loop] at h
    exact absurd h (by simp)
  | succ fuel ih =>
    intro skip t? acc t data logs ht h
    rw [fetch_loop] at h
    by_cases hemp : (server skip).value.isEmpty
    · simp only [hemp, reduceIte, Option.some.injEq, Prod.mk.injEq] at h
      obtain ⟨rfl, rfl⟩ := h
      exact ⟨[], ⟨skip, 0, acc.length⟩, rfl, Or.inl rfl, by simp⟩
    · simp only [hemp, Bool.false_eq_true, reduceIte, ht] at h
      by_cases hstop : t ≤ (acc ++ (server skip).value).length ∨
          (server skip).value.length < ps
      · rw [if_pos hstop] at h
        simp only [Option.some.injEq, Prod.mk.injEq] at h
        obtain ⟨rfl, rfl⟩ := h
        exact ⟨[], _, rfl, Or.inr (by simpa using hstop), by simp⟩
      · rw [if_neg hstop] at h
        cases hrec : fetch_loop server ps fuel (skip + (server skip).value.length)
            (some t) (acc ++ (server skip).value) with
        | none => rw [hrec] at h; exact absurd h (by simp)
        | some p =>
          obtain ⟨data', logs'⟩ := p
          rw [hrec] at h
          simp only [Option.some.injEq, Prod.mk.injEq] at h
          obtain ⟨rfl, rfl⟩ := h
          obtain ⟨init', last', hlogs', hstop', hinit'⟩ :=
            ih (skip + (server skip).value.length) (some t)
              (acc ++ (server skip).value) t data' logs' rfl hrec
          push_neg at hstop
          have hlen0 : (server skip).value.length ≠ 0 := by
            intro h0
            rw [List.length_eq_zero] at h0
            rw [h0] at hemp
            exact hemp rfl
          refine ⟨⟨skip, (server skip).value.length,
            (acc ++ (server skip).value).length⟩ :: init', last',
            by rw [hlogs', List.cons_append], hstop', ?_⟩
          intro l hl
          rcases List.mem_cons.mp hl with rfl | hl'
          · rintro (h1 | h2 | h3)
            · exact hlen0 h1
            · exact absurd h2 (by simpa using hstop.1)
            · exact absurd h3 (by simpa using hstop.2)
          · exact hinit' l hl'

/-- C4: against a server reporting 2500 total records with page size 1000, the
paginated fetch issues exactly 3 requests at `$skip` offsets 0, 1000, 2000 and
merges 2500 records; and in general the loop stops exactly at the first
iteration whose page is empty, or whose accumulated count reaches the
server-reported total, or whose page is shorter than the page size (no earlier
iteration satisfies any of these conditions). -/
theorem pagination_requests_and_stop :
    (∃ logs, fetch_data_paginated (canonical_server 2500 1000) 1000 3 =
        some (List.range 2500, logs) ∧
      logs.map IterLog.skip = [0, 1000, 2000] ∧ logs.length = 3 ∧
      (List.range 2500).length = 2500) ∧
    (∀ (server : Nat → PageResponse) (ps fuel : Nat) (data : List Nat)
      (logs : List IterLog),
      fetch_data_paginated server ps fuel = some (data, logs) →
      ∃ init last, logs = init ++ [last] ∧
        stops (effective_total server) ps last ∧
        ∀ l ∈ init, ¬ stops (effective_total server) ps l) := by
  constructor
  · obtain ⟨logs, hrun, hmap⟩ := fetch_loop_canonical 2500 1000 3 (by norm_num)
      (by norm_num) (by norm_num) 2 0 3 none (by norm_num) (by norm_num)
      (Or.inl rfl)
    refine ⟨logs, ?_, ?_, ?_, by rw [List.length_range]⟩
    · rw [fetch_data_paginated]
      simpa using hrun
    · rw [hmap]
      decide
    · have := congrArg List.length hmap
      rw [List.length_map, List.length_range'] at this
      simpa using this
  · intro server ps fuel data logs h
    exact fetch_loop_stop_char server ps fuel 0 none [] (effective_total server)
      data logs rfl h

/-- Concrete instance of C4's stop characterization: a server with 3 records
and page size 2 stops exactly at the second request (total reached), the first
request satisfying no stop condition. -/
theorem pagination_requests_and_stop_witness :
    ∃ init last,
      ([⟨0, 2, 2⟩, ⟨2, 1, 3⟩] : List IterLog) = init ++ [last] ∧
      stops (effective_total (canonical_server 3 2)) 2 last ∧
      ∀ l ∈ init, ¬ stops (effective_total (canonical_server 3 2)) 2 l :=
  pagination_requests_and_stop.2 (canonical_server 3 2) 2 5 [0, 1, 2]
    [⟨0, 2, 2⟩, ⟨2, 1, 3⟩] (by decide)

/-! ## C1: chunked fetch -/

theorem toChunks_flatten_aux {α : Type} (k : Nat) :
    ∀ (n : Nat) (xs : List α), xs.length ≤ n →
      (toChunks (k + 1) xs).flatten = xs := by
  intro n
  induction n with
  | zero =>
    intro xs hxs
    cases xs with
    | nil => simp [toChunks]
    | cons x xs' => simp at hxs
  | succ n ih =>
    intro xs hxs
    cases xs with
    | nil => simp [toChunks]
    | cons x xs' =>
      rw [toChunks, List.flatten_cons, ih ((x :: xs').drop (k + 1)) (by
        rw [List.length_drop]
        simp only [List.length_cons] at hxs ⊢
        omega)]
      exact List.take_append_drop (k + 1) (x :: xs')

theorem toChunks_le_aux {α : Type} (k : Nat) :
    ∀ (n : Nat) (xs : List α), xs.length ≤ n →
      ∀ g ∈ toChunks (k + 1) xs, g.length ≤ k + 1 := by
  intro n
  induction n with
  | zero =>
    intro xs hxs g hg
    cases xs with
    | nil => simp [toChunks] at hg
    | cons x xs' => simp at hxs
  | succ n ih =>
    intro xs hxs g hg
    cases xs with
    | nil => simp [toChunks] at hg
    | cons x xs' =>
      rw [toChunks] at hg
      rcases List.mem_cons.mp hg with rfl | hg'
      · rw [List.length_take]
        omega
      · exact ih ((x :: xs').drop (k + 1)) (by
          rw [List.length_drop]
          simp only [List.length_cons] at hxs ⊢
          omega) g hg'

theorem toChunks_length_aux {α : Type} (k : Nat) :
    ∀ (n : Nat) (xs : List α), xs.length ≤ n →
      (toChunks (k + 1) xs).length = (xs.length + k) / (k + 1) := by
  intro n
  induction n with
  | zero =>
    intro xs hxs
    cases xs with
    | nil =>
      simp [toChunks, Nat.div_eq_of_lt (Nat.lt_succ_self k)]
    | cons x xs' => simp at hxs
  | succ n ih =>
    intro xs hxs
    cases xs with
    | nil => simp [toChunks, Nat.div_eq_of_lt (Nat.lt_succ_self k)]
    | cons x xs' =>
      rw [toChunks, List.length_cons,
        ih ((x :: xs').drop (k + 1)) (by
          rw [List.length_drop]
          simp only [List.length_cons] at hxs ⊢
          omega),
        List.length_drop]
      simp only [List.length_cons]
      set L := xs'.length with hL
      by_cases hcmp : k + 1 ≤ L + 1
      · have h1 : L + 1 - (k + 1) + k = L := by omega
        have h2 : L + 1 + k = L + (k + 1) := by omega
        rw [h1, h2, Nat.add_div_right _ (Nat.succ_pos k)]
      · have h1 : L + 1 - (k + 1) = 0 := by omega
        rw [h1, Nat.zero_add]
        have h2 : k / (k + 1) = 0 := Nat.div_eq_of_lt (Nat.lt_succ_self k)
        have h3 : (L + 1 + k) / (k + 1) = 1 := by
          rw [Nat.div_eq_of_lt_le] <;> omega
        rw [h2, h3]

/-- C1 (spec-modelled): when the composed URL exceeds the 2048-character
threshold and the filter list contains exactly one parenthesized disjunction of
`n` equality conditions with `n` above the minimum chunkable size, the query is
split into `ceil(n / 50)` chunk requests (default chunk size 50), each chunk
holding at most 50 of the conditions and the chunks together holding exactly
the original conditions in order; the overall result is the concatenation of
the per-chunk results in chunk order, and the returned diagnostic URL carries
the `(chunked)` marker. -/
theorem chunked_query_splits (base endpoint : String) (selects : List String)
    (filters : List String) (idx : Nat) (conds : List String)
    (fetch : String → Option (List JRec))
    (hurl : URL_LENGTH_THRESHOLD <
      (compose_url base endpoint selects none (some filters) none).length)
    (hfind : find_chunkable filters = some (idx, conds))
    (hbig : MIN_CHUNKABLE_CONDITIONS < conds.length)
    (hfetch : ∀ u, ∃ r, fetch u = some r ∧ r ≠ []) :
    query_odataservice_chunked base endpoint selects filters fetch =
      (some ((toChunks DEFAULT_CHUNK_SIZE conds).map (fun g =>
        (fetch (compose_url base endpoint selects none
          (some (chunk_filters filters idx g)) none)).getD [])).flatten,
       compose_url base endpoint selects none (some filters) none ++ " (chunked)") ∧
    (toChunks DEFAULT_CHUNK_SIZE conds).length =
      (conds.length + (DEFAULT_CHUNK_SIZE - 1)) / DEFAULT_CHUNK_SIZE ∧
    (∀ g ∈ toChunks DEFAULT_CHUNK_SIZE conds, g.length ≤ DEFAULT_CHUNK_SIZE) ∧
    (toChunks DEFAULT_CHUNK_SIZE conds).flatten = conds ∧
    "(chunked)".data <:+:
      (compose_url base endpoint selects none (some filters) none ++
        " (chunked)").data := by
  have h50 : DEFAULT_CHUNK_SIZE = 49 + 1 := rfl
  have hlen : (toChunks DEFAULT_CHUNK_SIZE conds).length =
      (conds.length + (DEFAULT_CHUNK_SIZE - 1)) / DEFAULT_CHUNK_SIZE := by
    rw [h50]
    exact toChunks_length_aux 49 conds.length conds le_rfl
  have hgrp : 1 ≤ (toChunks DEFAULT_CHUNK_SIZE conds).length := by
    rw [hlen, h50]
    have : MIN_CHUNKABLE_CONDITIONS = 3 := rfl
    rw [Nat.le_div_iff_mul_le (Nat.succ_pos 49)]
    omega
  have hallne : ((toChunks DEFAULT_CHUNK_SIZE conds).map (fun g =>
      (fetch (compose_url base endpoint selects none
        (some (chunk_filters filters idx g)) none)).getD [])).flatten ≠ [] := by
    obtain ⟨g, gs, hgs⟩ : ∃ g gs, toChunks DEFAULT_CHUNK_SIZE conds = g :: gs := by
      cases hT : toChunks DEFAULT_CHUNK_SIZE conds with
      | nil => rw [hT] at hgrp; simp at hgrp
      | cons g gs => exact ⟨g, gs, rfl⟩
    rw [hgs, List.map_cons, List.flatten_cons]
    obtain ⟨r, hr, hrne⟩ := hfetch (compose_url base endpoint selects none
      (some (chunk_filters filters idx g)) none)
    rw [hr]
    simp only [Option.getD_some]
    intro hcontra
    exact hrne (List.append_eq_nil.mp hcontra).1
  have hne_notle : ¬ ((compose_url base endpoint selects none (some filters)
      none).length ≤ URL_LENGTH_THRESHOLD) := Nat.not_le.mpr hurl
  have hbig' : ¬ (conds.length ≤ MIN_CHUNKABLE_CONDITIONS) := Nat.not_le.mpr hbig
  have hempty_false : (((toChunks DEFAULT_CHUNK_SIZE conds).map (fun g =>
      (fetch (compose_url base endpoint selects none
        (some (chunk_filters filters idx g)) none)).getD [])).flatten).isEmpty
      = false := by
    cases hE : ((toChunks DEFAULT_CHUNK_SIZE conds).map (fun g =>
      (fetch (compose_url base endpoint selects none
        (some (chunk_filters filters idx g)) none)).getD [])).flatten with
    | nil => exact absurd hE hallne
    | cons a l => rfl
  have htry : try_chunked_request base endpoint selects filters
      DEFAULT_CHUNK_SIZE fetch =
      some ((toChunks DEFAULT_CHUNK_SIZE conds).map (fun g =>
        (fetch (compose_url base endpoint selects none
          (some (chunk_filters filters idx g)) none)).getD [])).flatten := by
    rw [try_chunked_request, if_neg hne_notle, hfind]
    simp only
    rw [if_neg hbig']
    simp only [hempty_false, Bool.false_eq_true, reduceIte]
  refine ⟨?_, hlen, ?_, ?_, ?_⟩
  · rw [query_odataservice_chunked, htry]
  · rw [h50]
    exact toChunks_le_aux 49 conds.length conds le_rfl
  · rw [h50]
    exact toChunks_flatten_aux 49 conds.length conds le_rfl
  · refine ⟨(compose_url base endpoint selects none (some filters) none).data ++
      [' '], [], ?_⟩
    rw [String.data_append]
    simp

/-- Concrete instance of C1: a base URL long enough to push the composed URL
past 2048 characters, with a single 4-condition OR-disjunction filter, yields
the `(chunked)`-tagged diagnostic URL and the ceil-partitioned chunk layout. -/
theorem chunked_query_splits_witness :
    (query_odataservice_chunked (String.mk (List.replicate 2100 'x')) "e" ["id"]
        ["(id eq 1 or id eq 2 or id eq 3 or id eq 4)"]
        (fun _ => some [[("id", "1")]])).2 =
      compose_url (String.mk (List.replicate 2100 'x')) "e" ["id"] none
        (some ["(id eq 1 or id eq 2 or id eq 3 or id eq 4)"]) none ++
        " (chunked)" ∧
    (toChunks DEFAULT_CHUNK_SIZE
        ["id eq 1", "id eq 2", "id eq 3", "id eq 4"]).length =
      ((["id eq 1", "id eq 2", "id eq 3", "id eq 4"] : List String).length +
        (DEFAULT_CHUNK_SIZE - 1)) / DEFAULT_CHUNK_SIZE ∧
    "(chunked)".data <:+:
      (compose_url (String.mk (List.replicate 2100 'x')) "e" ["id"] none
        (some ["(id eq 1 or id eq 2 or id eq 3 or id eq 4)"]) none ++
        " (chunked)").data := by
  have h := chunked_query_splits (String.mk (List.replicate 2100 'x')) "e" ["id"]
    ["(id eq 1 or id eq 2 or id eq 3 or id eq 4)"] 0
    ["id eq 1", "id eq 2", "id eq 3", "id eq 4"]
    (fun _ => some [[("id", "1")]])
    (by
      rw [compose_url, get_endpoint_url]
      simp only [String.length_append]
      have hb : (String.mk (List.replicate 2100 'x')).length = 2100 := by
        show (List.replicate 2100 'x').length = 2100
        rw [List.length_replicate]
      rw [hb]
      have hT : URL_LENGTH_THRESHOLD = 2048 := rfl
      rw [hT]
      omega)
    (by decide)
    (by decide)
    (fun _ => ⟨[[("id", "1")]], rfl, by simp⟩)
  exact ⟨congrArg Prod.snd h.1, h.2.1, h.2.2.2.2⟩

end P21Api
